import Mathlib

/-!
# SkillSage plan persistence, migration and synchronization: a verification development

This file is a shallow embedding of the plan data model and of the
persistence/synchronization logic of the SkillSage single-page application
(`src/models.ts`, `PersistenceService` and `DriveService` in
`src/services`, and the `progress` getter of
`learning-dashboard.component.ts`), together with theorems settling the
specification's claims about that logic.

Modelling conventions:
* JavaScript records become Lean structures; optional (possibly `undefined`)
  fields become `Option`.
* The dynamically-typed argument of `runMigrations` becomes the inductive
  `JsData`, whose constructors correspond exactly to the shape tests the
  code performs (`Array.isArray`, `typeof data === 'object' && data !== null
  && 'version' in data`).
* Code that can throw is embedded in `Except JsError`; the JavaScript value
  `undefined` flowing through an untyped variable is embedded as `none`.
* Asynchronous orchestration is embedded as pure functions over explicit
  state, with the results of the two remote calls (`getPlans`, `savePlans`)
  passed in as parameters, and, for the re-entrancy guard, as a step
  function over an event trace of the single-threaded interleaving.
-/

/-- `Resource` from `models.ts`: a titled link attached to a task. -/
structure Resource where
  title : String
  uri : String
deriving DecidableEq, Repr

/-- `LearningTask` from `models.ts`. `resources` is optional. -/
structure LearningTask where
  title : String
  description : String
  completed : Bool
  resources : Option (List Resource)
deriving DecidableEq, Repr

/-- `DailyTaskGroup` from `models.ts`: the tasks of one day. -/
structure DailyTaskGroup where
  day : Int
  tasks : List LearningTask
deriving DecidableEq, Repr

/-- `LearningModule` from `models.ts`: a weekly module holding daily task groups. -/
structure LearningModule where
  week : Int
  title : String
  dailyTasks : List DailyTaskGroup
deriving DecidableEq, Repr

/-- The attachment of a `DailyLog` entry from `models.ts`. -/
structure LogAttachment where
  mimeType : String
  data : String
  name : String
deriving DecidableEq, Repr

/-- `DailyLog` from `models.ts`: one journal entry of a plan. -/
structure DailyLog where
  id : String
  date : String
  notes : String
  attachment : Option LogAttachment
deriving DecidableEq, Repr

/-- `LearningFramework` from `models.ts`. -/
inductive LearningFramework where
  | standard
  | disss
deriving DecidableEq, Repr

/-- `LearningPlan` from `models.ts`, as it occurs in stored data.
`creationDate` and `dailyLogs` are `Option` because records written before
schema version 2 lack them (the interface marks `dailyLogs` optional, and
`creationDate` is backfilled by the migration). -/
structure LearningPlan where
  id : String
  creationDate : Option String
  skill : String
  modules : List LearningModule
  suggestedSkills : List String
  framework : LearningFramework
  assessmentSummary : String
  dailyLogs : Option (List DailyLog)
deriving DecidableEq, Repr

/-- The ways the embedded JavaScript code can throw: a `JSON.parse` failure,
a `TypeError` (calling a method on `undefined`), or a rejected remote call. -/
inductive JsError where
  | parseError
  | typeError
  | rejected
deriving DecidableEq, Repr

/-- A JavaScript value as it can reach `PersistenceService.runMigrations`.
The constructors mirror the shape tests in the code: `jsArray` is a value
for which `Array.isArray` holds, `jsObject version plans` is a non-null,
non-array object whose `version` field is present iff `version = some v`
and whose `plans` field is present iff `plans = some ps`; the remaining
constructors are the non-object primitives (for which
`typeof data === 'object'` fails) plus `null`. -/
inductive JsData where
  | jsNull
  | jsNumber (n : Int)
  | jsBool (b : Bool)
  | jsString (s : String)
  | jsArray (plans : List LearningPlan)
  | jsObject (version : Option Int) (plans : Option (List LearningPlan))
deriving DecidableEq, Repr

/-- The `Array.isArray(data)` test of `runMigrations`. -/
def jsIsArray : JsData → Bool
  | .jsArray _ => true
  | _ => false

/-- The `typeof data === 'object' && data !== null && 'version' in data`
test of `runMigrations`. -/
def jsHasVersion : JsData → Bool
  | .jsObject (some _) _ => true
  | _ => false

/-- The per-plan body of the `version < 2` upgrade in `runMigrations`:
`{...plan, creationDate: plan.creationDate || plan.id, dailyLogs:
plan.dailyLogs || []}`. JavaScript `||` is falsy-coalescing: an absent or
empty-string `creationDate` is replaced by `id`; an absent `dailyLogs` is
replaced by `[]` (a present empty array is truthy and kept, with the same
result). -/
def migratePlanToV2 (plan : LearningPlan) : LearningPlan :=
  { plan with
    creationDate := some (match plan.creationDate with
      | some s => if s = "" then plan.id else s
      | none => plan.id),
    dailyLogs := some (plan.dailyLogs.getD []) }

/-- `PersistenceService.runMigrations`, embedded over `JsData`.
The result `Except JsError (Option (List LearningPlan))` records that the
function can throw (when `version < 2` and `plans` is `undefined`, the code
calls `.map` on `undefined`) and that it can return `undefined` itself
(when the object carries a `version ≥ 2` but no `plans` field, the code
returns `data.plans` verbatim); `none` in the `Option` is JavaScript
`undefined`. -/
def runMigrations (data : JsData) : Except JsError (Option (List LearningPlan)) :=
  match data with
  | .jsArray plans =>
      -- version := 1, plans := data; then version < 2 runs the upgrade map
      .ok (some (plans.map migratePlanToV2))
  | .jsObject (some version) plans =>
      if version < 2 then
        match plans with
        | some ps => .ok (some (ps.map migratePlanToV2))
        | none => .error .typeError
      else
        .ok plans
  | _ =>
      -- neither shape matched: return []
      .ok (some [])

/-- C3 counterexample input: the object `{version: 2}` with no `plans` field. -/
def versionTwoNoPlans : JsData := JsData.jsObject (some 2) none

/-- C3 counterexample: on `{version: 2}` with no `plans` field — an input
that is "neither an array nor an object carrying both a recognizable
version and plans" — `runMigrations` does not return the empty collection:
it takes the `'version' in data` branch and returns `data.plans`, which is
`undefined` (`none`), not `[]`. -/
theorem runMigrations_versionTwoNoPlans_not_empty :
    runMigrations versionTwoNoPlans = Except.ok none ∧
      (Except.ok (Option.none) : Except JsError (Option (List LearningPlan))) ≠
        Except.ok (some []) := by
  constructor
  · rfl
  · intro h
    simp at h

/-- C3 (amended): for every input that is neither an array nor an object
carrying a `version` field — including `null`, the number `42`, the empty
object `{}`, and any object without `version` — `runMigrations` returns the
empty collection `[]` and never throws. (An object that does carry a
`version` field but no `plans` field is instead routed through the version
branch: it yields `undefined` when `version ≥ 2` and throws when
`version < 2`.) -/
theorem runMigrations_unrecognized_returns_empty (d : JsData)
    (harr : jsIsArray d = false) (hver : jsHasVersion d = false) :
    runMigrations d = Except.ok (some []) := by
  cases d with
  | jsNull => rfl
  | jsNumber n => rfl
  | jsBool b => rfl
  | jsString s => rfl
  | jsArray plans => simp [jsIsArray] at harr
  | jsObject version plans =>
      cases version with
      | none => rfl
      | some v => simp [jsHasVersion] at hver

/-- Witness for C3 (amended): the empty object `{}` is neither an array nor
carries a `version` field, and `runMigrations` maps it to `[]`. -/
theorem runMigrations_unrecognized_returns_empty_witness :
    runMigrations (JsData.jsObject none none) = Except.ok (some []) :=
  runMigrations_unrecognized_returns_empty (JsData.jsObject none none) rfl rfl

/-- C4: on a bare array (implicit version 1), `runMigrations` returns the
same records in the same order, each passed through the version-2 upgrade:
a record lacking `creationDate` gets `creationDate = id`, a record with a
present non-empty `creationDate` keeps it, a record lacking `dailyLogs`
gets `dailyLogs = []`, a record with present `dailyLogs` keeps them, and
every other field (`id`, `skill`, `modules`, `suggestedSkills`,
`framework`, `assessmentSummary`) is unchanged. -/
theorem runMigrations_bareArray (plans : List LearningPlan) :
    runMigrations (JsData.jsArray plans) = Except.ok (some (plans.map migratePlanToV2)) ∧
    (∀ p : LearningPlan, p.creationDate = none → (migratePlanToV2 p).creationDate = some p.id) ∧
    (∀ p : LearningPlan, ∀ s, p.creationDate = some s → s ≠ "" →
      (migratePlanToV2 p).creationDate = some s) ∧
    (∀ p : LearningPlan, p.dailyLogs = none → (migratePlanToV2 p).dailyLogs = some []) ∧
    (∀ p : LearningPlan, ∀ ls, p.dailyLogs = some ls → (migratePlanToV2 p).dailyLogs = some ls) ∧
    (∀ p : LearningPlan, (migratePlanToV2 p).id = p.id ∧ (migratePlanToV2 p).skill = p.skill ∧
      (migratePlanToV2 p).modules = p.modules ∧
      (migratePlanToV2 p).suggestedSkills = p.suggestedSkills ∧
      (migratePlanToV2 p).framework = p.framework ∧
      (migratePlanToV2 p).assessmentSummary = p.assessmentSummary) := by
  refine ⟨rfl, ?_, ?_, ?_, ?_, ?_⟩
  · intro p h
    simp [migratePlanToV2, h]
  · intro p s h hs
    simp [migratePlanToV2, h, hs]
  · intro p h
    simp [migratePlanToV2, h]
  · intro p ls h
    simp [migratePlanToV2, h]
  · intro p
    exact ⟨rfl, rfl, rfl, rfl, rfl, rfl⟩

/-- A concrete legacy (version-1) plan record lacking `creationDate` and
`dailyLogs`, used to instantiate migration theorems. -/
def legacyPlan : LearningPlan :=
  { id := "2023-05-01T00:00:00.000Z"
    creationDate := none
    skill := "Rust"
    modules := []
    suggestedSkills := []
    framework := .standard
    assessmentSummary := "beginner"
    dailyLogs := none }

/-- Witness for C4: migrating the concrete legacy record fills
`creationDate` from its `id`. -/
theorem runMigrations_bareArray_witness :
    legacyPlan.creationDate = none ∧
      (migratePlanToV2 legacyPlan).creationDate = some legacyPlan.id :=
  ⟨rfl, (runMigrations_bareArray [legacyPlan]).2.1 legacyPlan rfl⟩

/-- C5: the version-1-to-2 upgrade step is idempotent on every record, and
hence normalizing a bare array twice equals normalizing it once: feeding
the output of `runMigrations` on a bare array back in as a bare array
returns it unchanged. -/
theorem migratePlanToV2_idempotent (p : LearningPlan) (plans : List LearningPlan) :
    migratePlanToV2 (migratePlanToV2 p) = migratePlanToV2 p ∧
    runMigrations (JsData.jsArray (plans.map migratePlanToV2)) =
      Except.ok (some (plans.map migratePlanToV2)) := by
  have key : ∀ q : LearningPlan, migratePlanToV2 (migratePlanToV2 q) = migratePlanToV2 q := by
    intro q
    unfold migratePlanToV2
    cases hc : q.creationDate with
    | none =>
        by_cases hid : q.id = "" <;> simp [hid]
    | some s =>
        by_cases hs : s = ""
        · by_cases hid : q.id = "" <;> simp [hs, hid]
        · simp [hs]
  refine ⟨key p, ?_⟩
  show Except.ok (some ((plans.map migratePlanToV2).map migratePlanToV2)) = _
  rw [List.map_map]
  have : migratePlanToV2 ∘ migratePlanToV2 = migratePlanToV2 := by
    funext q
    exact key q
  rw [this]

/-- Witness for C5: idempotence instantiated at the concrete legacy record. -/
theorem migratePlanToV2_idempotent_witness :
    migratePlanToV2 (migratePlanToV2 legacyPlan) = migratePlanToV2 legacyPlan :=
  (migratePlanToV2_idempotent legacyPlan []).1

/-- The contents of the local-storage slot `skillSagePlans` as seen through
`localStorage.getItem` followed by `JSON.parse`: `none` means the key is
absent, `some (Except.error e)` means the stored string fails to parse, and
`some (Except.ok d)` is the parsed value. -/
abbrev LocalSlot := Option (Except JsError JsData)

/-- `PersistenceService.loadPlansFromLocalStorage`, as the value it leaves
in the `plans` signal. `none` models the signal holding JavaScript
`undefined`, which happens when `runMigrations` returns `data.plans` from a
`version ≥ 2` envelope with no `plans` field. A missing key, a parse
failure, or a `runMigrations` throw all leave the signal at `[]` (the
`catch` branch). -/
def loadPlansFromLocalStorage (slot : LocalSlot) : Option (List LearningPlan) :=
  match slot with
  | none => some []
  | some (Except.error _) => some []
  | some (Except.ok d) =>
      match runMigrations d with
      | Except.ok v => v
      | Except.error _ => some []

/-- Step 1 of `PersistenceService.loadPlansFromDriveWithMigration`:
`localData ? this.runMigrations(JSON.parse(localData)) : []`. A parse
failure or a `runMigrations` throw propagates to the orchestrator's
`catch` as an error. -/
def readLocalPlansStep (slot : LocalSlot) : Except JsError (Option (List LearningPlan)) :=
  match slot with
  | none => Except.ok (some [])
  | some (Except.error e) => Except.error e
  | some (Except.ok d) => runMigrations d

/-- Step 3 of `loadPlansFromDriveWithMigration`: the id set of the remote
plans is collected, the local plans whose id already occurs remotely are
dropped, and the survivors are appended after the remote plans. -/
def mergePlans (drivePlans localPlans : List LearningPlan) : List LearningPlan :=
  let planIdsInDrive := drivePlans.map (fun p => p.id)
  let plansToMigrate := localPlans.filter (fun p => !(planIdsInDrive.contains p.id))
  drivePlans ++ plansToMigrate

/-- The state a sync cycle acts on: the `plans` signal (`none` is the
signal holding `undefined`), the local-storage slot, the remote document
contents, and whether `DriveService.savePlans` completed a write this
cycle. -/
structure SyncOutcome where
  plans : Option (List LearningPlan)
  slot : LocalSlot
  drive : List LearningPlan
  driveWritten : Bool
deriving Repr

/-- The `catch` branch of `loadPlansFromDriveWithMigration`: fall back to
`loadPlansFromLocalStorage`, touching neither the slot nor the remote
store. -/
def syncFallback (slot : LocalSlot) (drive0 : List LearningPlan) : SyncOutcome :=
  { plans := loadPlansFromLocalStorage slot
    slot := slot
    drive := drive0
    driveWritten := false }

/-- `PersistenceService.loadPlansFromDriveWithMigration`, embedded as a
pure function. `fetchResult` is the outcome of `driveService.getPlans()`
(its rejection, e.g. a failed gapi initialization, is the `error` case);
`saveResult` is the outcome of `driveService.savePlans`; `drive0` is the
remote document's contents when the cycle starts. The function is total:
every throw inside the `try` lands in the `catch`, so no exception escapes.
Note that when step 1 produces `undefined` (a `version ≥ 2` envelope with
no `plans`), the test `localPlans.length > 0` itself throws and lands in
the `catch` as well. -/
def loadPlansFromDriveWithMigration (slot : LocalSlot)
    (fetchResult : Except JsError (List LearningPlan))
    (saveResult : Except JsError Unit)
    (drive0 : List LearningPlan) : SyncOutcome :=
  match readLocalPlansStep slot with
  | Except.error _ => syncFallback slot drive0
  | Except.ok localPlansVal =>
      match fetchResult with
      | Except.error _ => syncFallback slot drive0
      | Except.ok drivePlans =>
          match localPlansVal with
          | none => syncFallback slot drive0
          | some localPlans =>
              if localPlans.length > 0 then
                match saveResult with
                | Except.error _ => syncFallback slot drive0
                | Except.ok _ =>
                    { plans := some (mergePlans drivePlans localPlans)
                      slot := none
                      drive := mergePlans drivePlans localPlans
                      driveWritten := true }
              else
                { plans := some drivePlans
                  slot := slot
                  drive := drive0
                  driveWritten := false }

/-- C1: when the local collection is non-empty and the cycle succeeds, the
collection persisted to the remote store and installed in the `plans`
signal is the remote collection followed by exactly those local plans
whose id does not occur in the remote collection, in that order. -/
theorem syncWithRemote_merges_remote_wins (slot : LocalSlot)
    (localPlans drivePlans drive0 : List LearningPlan)
    (hlocal : readLocalPlansStep slot = Except.ok (some localPlans))
    (hne : localPlans ≠ []) :
    (loadPlansFromDriveWithMigration slot (Except.ok drivePlans) (Except.ok ()) drive0).plans =
      some (drivePlans ++ localPlans.filter
        (fun p => decide (p.id ∉ drivePlans.map (fun q => q.id)))) ∧
    (loadPlansFromDriveWithMigration slot (Except.ok drivePlans) (Except.ok ()) drive0).drive =
      drivePlans ++ localPlans.filter
        (fun p => decide (p.id ∉ drivePlans.map (fun q => q.id))) := by
  have hmerge : mergePlans drivePlans localPlans =
      drivePlans ++ localPlans.filter
        (fun p => decide (p.id ∉ drivePlans.map (fun q => q.id))) := by
    simp only [mergePlans]
    congr 1
    apply List.filter_congr
    intro p _
    simp
    rw [← decide_not]
    apply decide_eq_decide.mpr
    push_neg
    rfl
  have hlen : localPlans.length > 0 := List.length_pos.mpr hne
  simp [loadPlansFromDriveWithMigration, hlocal, hlen, hmerge]

/-- A concrete plan with id `a`, present only locally before sync. -/
def planLocalA : LearningPlan :=
  { id := "a"
    creationDate := some "2024-01-01"
    skill := "TypeScript"
    modules := []
    suggestedSkills := []
    framework := .standard
    assessmentSummary := "novice"
    dailyLogs := some [] }

/-- A concrete plan with id `b`, the local version. -/
def planLocalB : LearningPlan :=
  { id := "b"
    creationDate := some "2024-02-01"
    skill := "Go"
    modules := []
    suggestedSkills := []
    framework := .standard
    assessmentSummary := "novice"
    dailyLogs := some [] }

/-- A concrete plan with id `b` and different content, the remote version. -/
def planDriveB : LearningPlan :=
  { id := "b"
    creationDate := some "2024-02-02"
    skill := "Go"
    modules := []
    suggestedSkills := ["Rust"]
    framework := .disss
    assessmentSummary := "intermediate"
    dailyLogs := some [] }

/-- Witness for C1: local `[A, B]` (ids `a`, `b`) against remote `[B']`
(id `b`, different content) merges to `[B', A]`. -/
theorem syncWithRemote_merges_remote_wins_witness :
    (loadPlansFromDriveWithMigration
        (some (Except.ok (JsData.jsObject (some 2) (some [planLocalA, planLocalB]))))
        (Except.ok [planDriveB]) (Except.ok ()) []).plans =
      some [planDriveB, planLocalA] := by
  have h := (syncWithRemote_merges_remote_wins
      (some (Except.ok (JsData.jsObject (some 2) (some [planLocalA, planLocalB]))))
      [planLocalA, planLocalB] [planDriveB] [] (by rfl) (by simp)).1
  rw [h]
  decide

/-- C2: when the remote fetch rejects, the cycle falls back: the `plans`
signal ends up exactly as `loadPlansFromLocalStorage` alone would have left
it, nothing is written to the remote store, the local slot is untouched,
and — the embedding being a total function whose codomain carries no error —
no exception escapes the orchestrator; the cycle performs no retry. -/
theorem syncWithRemote_fetchError_falls_back (slot : LocalSlot) (e : JsError)
    (saveResult : Except JsError Unit) (drive0 : List LearningPlan) :
    (loadPlansFromDriveWithMigration slot (Except.error e) saveResult drive0).plans =
      loadPlansFromLocalStorage slot ∧
    (loadPlansFromDriveWithMigration slot (Except.error e) saveResult drive0).driveWritten =
      false ∧
    (loadPlansFromDriveWithMigration slot (Except.error e) saveResult drive0).slot = slot ∧
    (loadPlansFromDriveWithMigration slot (Except.error e) saveResult drive0).drive = drive0 := by
  cases h : readLocalPlansStep slot with
  | error e2 => simp [loadPlansFromDriveWithMigration, h, syncFallback]
  | ok v => simp [loadPlansFromDriveWithMigration, h, syncFallback]

/-- C6: on a successful cycle with non-empty local plans, the local slot is
removed and the merged collection is persisted remotely; and the persist
happens before the clear — if the remote persist rejects, the slot is left
untouched. -/
theorem syncWithRemote_clears_local_after_remote_persist (slot : LocalSlot)
    (localPlans drivePlans drive0 : List LearningPlan)
    (hlocal : readLocalPlansStep slot = Except.ok (some localPlans))
    (hne : localPlans ≠ []) :
    ((loadPlansFromDriveWithMigration slot (Except.ok drivePlans) (Except.ok ()) drive0).slot =
        none ∧
      (loadPlansFromDriveWithMigration slot (Except.ok drivePlans) (Except.ok ()) drive0).drive =
        mergePlans drivePlans localPlans ∧
      (loadPlansFromDriveWithMigration slot
          (Except.ok drivePlans) (Except.ok ()) drive0).driveWritten = true) ∧
    (∀ e : JsError,
      (loadPlansFromDriveWithMigration slot (Except.ok drivePlans) (Except.error e) drive0).slot =
        slot) := by
  have hlen : localPlans.length > 0 := List.length_pos.mpr hne
  constructor
  · refine ⟨?_, ?_, ?_⟩ <;> simp [loadPlansFromDriveWithMigration, hlocal, hlen]
  · intro e
    simp [loadPlansFromDriveWithMigration, hlocal, hlen, syncFallback]

/-- Witness for C6: a successful cycle starting from a version-2 envelope
holding one plan ends with the local slot absent. -/
theorem syncWithRemote_clears_local_witness :
    (loadPlansFromDriveWithMigration
        (some (Except.ok (JsData.jsObject (some 2) (some [planLocalA]))))
        (Except.ok []) (Except.ok ()) []).slot = none :=
  ((syncWithRemote_clears_local_after_remote_persist
      (some (Except.ok (JsData.jsObject (some 2) (some [planLocalA]))))
      [planLocalA] [] [] (by rfl) (by simp)).1).1

/-- C7: when the normalized local collection is empty, the `plans` signal
becomes exactly the fetched remote collection, `savePlans` is never called,
and the remote store's contents are unchanged by the cycle. -/
theorem syncWithRemote_emptyLocal_no_write (slot : LocalSlot)
    (drivePlans drive0 : List LearningPlan) (saveResult : Except JsError Unit)
    (hlocal : readLocalPlansStep slot = Except.ok (some [])) :
    (loadPlansFromDriveWithMigration slot (Except.ok drivePlans) saveResult drive0).plans =
      some drivePlans ∧
    (loadPlansFromDriveWithMigration slot (Except.ok drivePlans) saveResult drive0).driveWritten =
      false ∧
    (loadPlansFromDriveWithMigration slot (Except.ok drivePlans) saveResult drive0).drive =
      drive0 := by
  refine ⟨?_, ?_, ?_⟩ <;> simp [loadPlansFromDriveWithMigration, hlocal]

/-- Witness for C7: with the local slot absent and remote `[B']`, the
signal becomes `[B']` and no remote write happens. -/
theorem syncWithRemote_emptyLocal_no_write_witness :
    (loadPlansFromDriveWithMigration none
        (Except.ok [planDriveB]) (Except.ok ()) [planDriveB]).plans = some [planDriveB] ∧
    (loadPlansFromDriveWithMigration none
        (Except.ok [planDriveB]) (Except.ok ()) [planDriveB]).driveWritten = false := by
  have h := syncWithRemote_emptyLocal_no_write none [planDriveB] [planDriveB]
    (Except.ok ()) rfl
  exact ⟨h.1, h.2.1⟩

/-- All tasks of a plan, as collected by the `progress` getter of
`LearningDashboardComponent`:
`(plan.modules ?? []).flatMap(m => (m.dailyTasks ?? []).flatMap(d => (d.tasks ?? [])))`
(the `?? []` coalescing is vacuous here because the embedded fields are
always present lists). -/
def planAllTasks (plan : LearningPlan) : List LearningTask :=
  plan.modules.flatMap (fun m => m.dailyTasks.flatMap (fun d => d.tasks))

/-- JavaScript `Math.round` on exact arithmetic: round half toward
positive infinity, `⌊x + 1/2⌋`. -/
def jsMathRound (x : ℚ) : ℤ := ⌊x + 1/2⌋

/-- The `progress` getter of `LearningDashboardComponent`: `0` when there
are no tasks, otherwise
`Math.round((completedTasks / allTasks.length) * 100)`; the JavaScript
float division is embedded as exact rational division. -/
def progress (plan : LearningPlan) : ℤ :=
  let allTasks := planAllTasks plan
  if allTasks.length = 0 then 0
  else jsMathRound
    ((((allTasks.filter (fun t => t.completed)).length : ℚ) / allTasks.length) * 100)

/-- Specification-side count of all tasks across all modules and days,
written as nested sums. -/
def planTotalTasks (plan : LearningPlan) : Nat :=
  (plan.modules.map (fun m => (m.dailyTasks.map (fun d => d.tasks.length)).sum)).sum

/-- Specification-side count of completed tasks across all modules and
days, written as nested sums. -/
def planCompletedTasks (plan : LearningPlan) : Nat :=
  (plan.modules.map (fun m =>
    (m.dailyTasks.map (fun d => (d.tasks.filter (fun t => t.completed)).length)).sum)).sum

/-- C9: the reported completion percentage is the number of completed
tasks across all modules and days, divided by the total number of tasks,
times 100, rounded to the nearest integer (`round`, half up, as
JavaScript's `Math.round`); a plan with zero total tasks reports 0 with no
division by zero. -/
theorem progress_rounds_completed_ratio (plan : LearningPlan) :
    (planTotalTasks plan = 0 → progress plan = 0) ∧
    (planTotalTasks plan ≠ 0 →
      progress plan =
        round (((planCompletedTasks plan : ℚ) / (planTotalTasks plan)) * 100)) := by
  have hlen : (planAllTasks plan).length = planTotalTasks plan := by
    simp [planAllTasks, planTotalTasks, Function.comp_def]
  have hcomp : ((planAllTasks plan).filter (fun t => t.completed)).length =
      planCompletedTasks plan := by
    simp [planAllTasks, planCompletedTasks, List.filter_flatMap, Function.comp_def]
  constructor
  · intro h0
    simp [progress, hlen, h0]
  · intro hne
    simp only [progress, hlen, hcomp, if_neg hne, jsMathRound, round_eq]

/-- A completed task, for concrete progress computations. -/
def taskDone : LearningTask :=
  { title := "done", description := "", completed := true, resources := none }

/-- An incomplete task, for concrete progress computations. -/
def taskTodo : LearningTask :=
  { title := "todo", description := "", completed := false, resources := none }

/-- A concrete plan with 10 tasks across two modules and three days, 3 of
them complete. -/
def planTenTasks : LearningPlan :=
  { id := "p10"
    creationDate := some "2024-03-01"
    skill := "Python"
    modules := [
      { week := 1, title := "w1", dailyTasks := [
          { day := 1, tasks := [taskDone, taskDone, taskTodo, taskTodo, taskTodo] },
          { day := 2, tasks := [taskDone, taskTodo] } ] },
      { week := 2, title := "w2", dailyTasks := [
          { day := 1, tasks := [taskTodo, taskTodo, taskTodo] } ] } ]
    suggestedSkills := []
    framework := .standard
    assessmentSummary := ""
    dailyLogs := some [] }

/-- A concrete plan whose only module and day carry no tasks at all. -/
def planZeroTasks : LearningPlan :=
  { id := "p0"
    creationDate := some "2024-03-02"
    skill := "Haskell"
    modules := [ { week := 1, title := "w1", dailyTasks := [ { day := 1, tasks := [] } ] } ]
    suggestedSkills := []
    framework := .standard
    assessmentSummary := ""
    dailyLogs := some [] }

/-- Witness for C9: the 10-task plan with 3 complete reports 30, and the
zero-task plan reports 0. -/
theorem progress_rounds_completed_ratio_witness :
    progress planTenTasks = 30 ∧ progress planZeroTasks = 0 := by
  constructor
  · have h := (progress_rounds_completed_ratio planTenTasks).2 (by decide)
    have hc : planCompletedTasks planTenTasks = 3 := by decide
    have ht : planTotalTasks planTenTasks = 10 := by decide
    rw [h, hc, ht]
    norm_num [round_eq]
  · exact (progress_rounds_completed_ratio planZeroTasks).1 (by decide)

/-- Mapping with an index-equality test is the same as `List.set`: this is
the shape `plans.map((p, i) => i === existingIndex ? plan : p)` takes in
`savePlan`. -/
theorem mapIdx_ite_eq_set {α : Type} (l : List α) (k : Nat) (a : α) :
    l.mapIdx (fun i x => if i = k then a else x) = l.set k a := by
  apply List.ext_getElem
  · simp
  · intro n h1 h2
    simp only [List.getElem_mapIdx, List.getElem_set]
    by_cases h : n = k
    · simp [h]
    · simp [h, Ne.symm h]

/-- If `findIdx?` answers `some k`, then `k` is in bounds and the predicate
holds at position `k`. -/
theorem findIdx?_some_spec {α : Type} (p : α → Bool) :
    ∀ (l : List α) (k : Nat), l.findIdx? p = some k →
      ∃ h : k < l.length, p (l.get ⟨k, h⟩) = true := by
  intro l
  induction l with
  | nil => intro k h; simp [List.findIdx?] at h
  | cons a l ih =>
      intro k h
      rw [List.findIdx?_cons] at h
      by_cases hp : p a
      · rw [if_pos hp] at h
        cases h
        exact ⟨Nat.succ_pos _, hp⟩
      · rw [if_neg hp, List.findIdx?_succ] at h
        cases hk : l.findIdx? p with
        | none => rw [hk] at h; simp at h
        | some j =>
            rw [hk] at h
            simp at h
            obtain ⟨hj, hpj⟩ := ih j hk
            cases h
            exact ⟨Nat.succ_lt_succ hj, hpj⟩

/-- With pairwise-distinct ids, `findIndex(p => p.id === plan.id)` returns
exactly the position of the plan carrying `plan.id`. -/
theorem findIdx?_id_of_nodup :
    ∀ (l : List LearningPlan) (i : Nat) (h : i < l.length) (plan : LearningPlan),
      (l.map (fun p => p.id)).Nodup → (l.get ⟨i, h⟩).id = plan.id →
      l.findIdx? (fun p => p.id == plan.id) = some i := by
  intro l
  induction l with
  | nil => intro i h; exact absurd h (Nat.not_lt_zero i)
  | cons a l ih =>
      intro i h plan hnodup hid
      rw [List.findIdx?_cons]
      cases i with
      | zero =>
          rw [if_pos (by simpa using hid)]
      | succ j =>
          have hj : j < l.length := Nat.lt_of_succ_lt_succ h
          rw [List.map_cons, List.nodup_cons] at hnodup
          have hmem : plan.id ∈ l.map (fun p => p.id) :=
            List.mem_map.mpr ⟨l.get ⟨j, hj⟩, List.get_mem l j hj, hid⟩
          have hne : ¬ (a.id == plan.id) = true := by
            intro hbeq
            exact hnodup.1 ((beq_iff_eq.mp hbeq) ▸ hmem)
          rw [if_neg hne, List.findIdx?_succ, ih j hj plan hnodup.2 hid]
          rfl

/-- Setting a position to the element it already holds is the identity. -/
theorem set_get_self {α : Type} (l : List α) (i : Nat) (h : i < l.length) :
    l.set i (l.get ⟨i, h⟩) = l := by
  apply List.ext_getElem
  · simp
  · intro n h1 h2
    simp only [List.getElem_set]
    split
    · next he => subst he; rfl
    · rfl

/-- The update closure of the logged-in branch of
`PersistenceService.savePlan`: look up `existingIndex` with
`plans.findIndex(p => p.id === plan.id)`; if found, map over the list
replacing the element at that index with `plan`, otherwise append `plan`.
(The Drive write that follows is fire-and-forget and does not affect the
returned collection.) -/
def savePlanLoggedIn (plans : List LearningPlan) (plan : LearningPlan) : List LearningPlan :=
  match plans.findIdx? (fun p => p.id == plan.id) with
  | some existingIndex => plans.mapIdx (fun i p => if i = existingIndex then plan else p)
  | none => plans ++ [plan]

/-- The update closure of the logged-out branch of
`PersistenceService.savePlan`, textually duplicated in the source: the same
lookup-replace-or-append, followed by a local-storage write that does not
affect the returned collection. -/
def savePlanLoggedOut (plans : List LearningPlan) (plan : LearningPlan) : List LearningPlan :=
  match plans.findIdx? (fun p => p.id == plan.id) with
  | some existingIndex => plans.mapIdx (fun i p => if i = existingIndex then plan else p)
  | none => plans ++ [plan]

/-- C10: under pairwise-distinct ids, `savePlan` is an order-preserving
upsert: if position `i` holds the plan with `plan.id`, the result is
`plans.set i plan` (that plan replaced in place, all others untouched); if
no plan has `plan.id`, the result is `plans ++ [plan]`; the resulting ids
stay pairwise distinct; and the logged-in and logged-out branches compute
identically. -/
theorem savePlan_upsert (plans : List LearningPlan) (plan : LearningPlan)
    (hnodup : (plans.map (fun p => p.id)).Nodup) :
    (∀ i : Fin plans.length, (plans.get i).id = plan.id →
      savePlanLoggedIn plans plan = plans.set i plan) ∧
    ((∀ q ∈ plans, q.id ≠ plan.id) → savePlanLoggedIn plans plan = plans ++ [plan]) ∧
    ((savePlanLoggedIn plans plan).map (fun p => p.id)).Nodup ∧
    savePlanLoggedIn plans plan = savePlanLoggedOut plans plan := by
  refine ⟨?_, ?_, ?_, rfl⟩
  · intro i hid
    unfold savePlanLoggedIn
    rw [findIdx?_id_of_nodup plans i.1 i.2 plan hnodup hid]
    show plans.mapIdx (fun j p => if j = i.1 then plan else p) = plans.set i.1 plan
    exact mapIdx_ite_eq_set plans i.1 plan
  · intro hall
    unfold savePlanLoggedIn
    have hnone : plans.findIdx? (fun p => p.id == plan.id) = none := by
      rw [List.findIdx?_eq_none_iff]
      intro q hq
      simpa using hall q hq
    rw [hnone]
  · unfold savePlanLoggedIn
    cases hfind : plans.findIdx? (fun p => p.id == plan.id) with
    | none =>
        have hnotin : plan.id ∉ plans.map (fun p => p.id) := by
          rw [List.findIdx?_eq_none_iff] at hfind
          rw [List.mem_map]
          rintro ⟨q, hq, hqid⟩
          have := hfind q hq
          simp [hqid] at this
        simp only [List.map_append, List.map_cons, List.map_nil, List.nodup_append]
        exact ⟨hnodup, List.nodup_singleton _, by
          intro x hx hx1
          simp only [List.mem_singleton] at hx1
          exact hnotin (hx1 ▸ hx)⟩
    | some k =>
        obtain ⟨hk, hpk⟩ := findIdx?_some_spec _ plans k hfind
        have hkid : (plans.get ⟨k, hk⟩).id = plan.id := beq_iff_eq.mp hpk
        show ((plans.mapIdx (fun i p => if i = k then plan else p)).map (fun p => p.id)).Nodup
        rw [mapIdx_ite_eq_set, List.map_set]
        have hgetmap : plan.id = (plans.map (fun p => p.id)).get
            ⟨k, by simpa using hk⟩ := by
          simp [← hkid]
        rw [hgetmap, set_get_self]
        exact hnodup

/-- Witness for C10: upserting the remote version of plan `b` into
`[A, B]` (ids `a`, `b`, distinct) replaces `B` in place. -/
theorem savePlan_upsert_witness :
    savePlanLoggedIn [planLocalA, planLocalB] planDriveB = [planLocalA, planDriveB] := by
  have h := (savePlan_upsert [planLocalA, planLocalB] planDriveB (by decide)).1
      ⟨1, by decide⟩ (by decide)
  rw [h]
  decide

/-- Events of the single-threaded sync orchestrator, abstracting the
interleaving of `loadPlansFromDriveWithMigration` executions across its
`await` suspension points: `trigger` is the reactive effect invoking the
method (the guard check `if (this.isMigrating()) return;` and, when it
passes, `this.isMigrating.set(true)` run atomically — no `await` separates
them); `finish` is an in-flight execution reaching its `finally` block,
which happens on success and on failure alike since every path of the
body's `try`/`catch` terminates. -/
inductive OrchestratorEvent where
  | trigger
  | finish
deriving DecidableEq, Repr

/-- The orchestrator's guard state: the `isMigrating` signal together with
the number of executions currently between their start and their
`finally`. -/
structure OrchestratorState where
  isMigrating : Bool
  activeSyncs : Nat
deriving DecidableEq, Repr

/-- One event of the orchestrator: a trigger while `isMigrating` is set
returns immediately, leaving the state unchanged (the trigger is dropped,
not queued); a trigger otherwise sets the flag and starts an execution; a
finish runs `this.isMigrating.set(false)` and retires the execution. -/
def orchestratorStep (s : OrchestratorState) : OrchestratorEvent → OrchestratorState
  | .trigger =>
      if s.isMigrating then s
      else { isMigrating := true, activeSyncs := s.activeSyncs + 1 }
  | .finish => { isMigrating := false, activeSyncs := s.activeSyncs - 1 }

/-- The orchestrator state after a trace of events, starting from the
initial state: `isMigrating = false`, nothing in flight. -/
def orchestratorRun (events : List OrchestratorEvent) : OrchestratorState :=
  events.foldl orchestratorStep { isMigrating := false, activeSyncs := 0 }

/-- Inductive invariant of the guard: the number of in-flight executions is
1 exactly when `isMigrating` is set, 0 otherwise. -/
theorem orchestratorRun_inv (events : List OrchestratorEvent) :
    (orchestratorRun events).activeSyncs =
      (if (orchestratorRun events).isMigrating then 1 else 0) := by
  suffices h : ∀ (evs : List OrchestratorEvent) (s : OrchestratorState),
      s.activeSyncs = (if s.isMigrating then 1 else 0) →
      (evs.foldl orchestratorStep s).activeSyncs =
        (if (evs.foldl orchestratorStep s).isMigrating then 1 else 0) by
    exact h events _ rfl
  intro evs
  induction evs with
  | nil => intro s hs; exact hs
  | cons e evs ih =>
      intro s hs
      apply ih
      cases e with
      | trigger =>
          by_cases hm : s.isMigrating <;> simp [orchestratorStep, hm, hs]
      | finish =>
          by_cases hm : s.isMigrating <;> simp [orchestratorStep, hm, hs]

/-- C8: in every state reachable by any trace of triggers and finishes, at
most one sync execution is in flight; a trigger arriving while the
in-flight flag is set leaves the state unchanged (dropped, not queued, no
sync steps performed); and a finishing execution always clears the flag,
whether it succeeded or failed. -/
theorem orchestrator_single_flight (events : List OrchestratorEvent) :
    (orchestratorRun events).activeSyncs ≤ 1 ∧
    (∀ s : OrchestratorState, s.isMigrating = true →
      orchestratorStep s OrchestratorEvent.trigger = s) ∧
    (∀ s : OrchestratorState,
      (orchestratorStep s OrchestratorEvent.finish).isMigrating = false) := by
  refine ⟨?_, ?_, ?_⟩
  · rw [orchestratorRun_inv events]
    by_cases hm : (orchestratorRun events).isMigrating <;> simp [hm]
  · intro s hm
    simp [orchestratorStep, hm]
  · intro s
    simp [orchestratorStep]

/-- Witness for C8: a trace of two back-to-back triggers still has at most
one execution in flight, and the concrete in-flight state absorbs a
trigger unchanged. -/
theorem orchestrator_single_flight_witness :
    (orchestratorRun [OrchestratorEvent.trigger, OrchestratorEvent.trigger]).activeSyncs ≤ 1 ∧
    orchestratorStep { isMigrating := true, activeSyncs := 1 } OrchestratorEvent.trigger =
      { isMigrating := true, activeSyncs := 1 } :=
  ⟨(orchestrator_single_flight [OrchestratorEvent.trigger, OrchestratorEvent.trigger]).1,
    (orchestrator_single_flight []).2.1 { isMigrating := true, activeSyncs := 1 } rfl⟩
